import Mathlib

/-!
Verification of the horse-racing wagering-advisory pipeline.

Shallow embedding of the computational core of the repository:
`feature_engineering.py` (causal rolling-window features per horse),
`backtest.py` (profit / ROI / Sharpe-like ratio / drawdown analytics),
`api.py` and `dashboard.py` (implied probability and capped Kelly staking),
`value_betting.py` and `backtest_from_historical.py` (edge computations).

Monetary quantities, odds and probabilities are modelled as rationals
(`ℚ`); the Sharpe-like ratio, which needs a square root, lives in `ℝ`.
Boolean race outcomes (`is_top3`) are `Bool`; calendar dates are day
numbers in `Int`; horse names are identifiers in `Nat` (only their
equality and ordering matter to the code being modelled).
-/

namespace HorseRacing

/-- Arithmetic mean of a list of rationals, `sum / length`
(pandas `Series.mean`; the empty case is never used on a valid path). -/
def meanQ (l : List ℚ) : ℚ := l.sum / (l.length : ℚ)

/-! ## feature_engineering.py -/

/-- One input row of `historical_races.csv`: the columns
`add_historical_features` reads. -/
structure Row where
  horse_name : Nat
  race_date : Int
  is_top3 : Bool
  win_odds : ℚ
  actual_weight : ℚ
deriving DecidableEq

/-- Numeric value of the boolean `is_top3` column (0/1 in the CSV). -/
def outcomeVal (r : Row) : ℚ := if r.is_top3 then 1 else 0

/-- The derived feature columns `add_historical_features` appends;
`none` models pandas `NaN`. -/
structure FeatureRow where
  last_is_top3 : Option ℚ
  top3_rate_last_1 : Option ℚ
  top3_rate_last_3 : Option ℚ
  top3_rate_last_5 : Option ℚ
  avg_odds_last_3 : Option ℚ
  avg_actual_weight_last_3 : Option ℚ
  days_since_last_race : Option Int
deriving DecidableEq

/-- The all-`NaN` feature row: the initial state of the new columns,
left untouched for the first race of each horse. -/
def emptyFeatureRow : FeatureRow :=
  { last_is_top3 := none
    top3_rate_last_1 := none
    top3_rate_last_3 := none
    top3_rate_last_5 := none
    avg_odds_last_3 := none
    avg_actual_weight_last_3 := none
    days_since_last_race := none }

/-- Body of the per-horse loop of `add_historical_features`: the feature
row for the observation at position `i` of a horse's group `g`
(the rows of the sorted frame for that horse, in sorted order).
`group.iloc[:i]` is `g.take i`; `group.iloc[max(0,i-3):i]` is
`(g.take i).drop (i-3)` (truncated `Nat` subtraction is `max 0`). -/
def featureRowAt (g : List Row) (i : Nat) : FeatureRow :=
  if i = 0 then emptyFeatureRow
  else
    let prior := g.take i
    let past_1 := prior.map outcomeVal
    let past_3 := (prior.drop (i - 3)).map outcomeVal
    let past_5 := (prior.drop (i - 5)).map outcomeVal
    let odds_3 := (prior.drop (i - 3)).map Row.win_odds
    let weight_3 := (prior.drop (i - 3)).map Row.actual_weight
    { last_is_top3 := past_1.getLast?
      top3_rate_last_1 := some (meanQ past_1)
      top3_rate_last_3 := some (meanQ past_3)
      top3_rate_last_5 := some (meanQ past_5)
      avg_odds_last_3 := some (meanQ odds_3)
      avg_actual_weight_last_3 := some (meanQ weight_3)
      days_since_last_race :=
        match g[i]?, g[i-1]? with
        | some cur, some prev => some (cur.race_date - prev.race_date)
        | _, _ => none }

/-- The sort key of `df.sort_values(['horse_name', 'race_date'])`:
lexicographic on (horse, date). -/
abbrev rowLE (a b : Row) : Prop :=
  a.horse_name < b.horse_name ∨
    (a.horse_name = b.horse_name ∧ a.race_date ≤ b.race_date)

instance : IsTotal Row rowLE :=
  ⟨fun a b => by unfold rowLE; omega⟩

instance : IsTrans Row rowLE :=
  ⟨fun a b c hab hbc => by
    unfold rowLE at *
    omega⟩

/-- `df.sort_values(['horse_name', 'race_date'])`. -/
def sortRows (df : List Row) : List Row := List.insertionSort rowLE df

/-- `add_historical_features` of `feature_engineering.py`: sort by
(horse, date), then for each row compute the features from the rows of
the same horse at earlier positions of the sorted frame.  The function
performs no validation: unordered input is sorted and processed. -/
def add_historical_features (df : List Row) : List (Row × FeatureRow) :=
  let sorted := sortRows df
  sorted.enum.map (fun p =>
    let g := sorted.filter (fun r2 => r2.horse_name = p.2.horse_name)
    let i := ((sorted.take p.1).filter
      (fun r2 => r2.horse_name = p.2.horse_name)).length
    (p.2, featureRowAt g i))

/-! ## backtest.py -/

/-- One row of `high_value_bets_with_labels.csv` as used by
`backtest.py`: realized outcome and the market odds. -/
structure BetRow where
  is_top3 : Bool
  win_odds : ℚ
deriving DecidableEq

/-- `df['profit']`: flat unit stake, `odds - 1` on a hit, `-1` on a miss. -/
def profitOf (b : BetRow) : ℚ := if b.is_top3 then b.win_odds - 1 else -1

/-- The profit column of the backtest frame. -/
def profits (bets : List BetRow) : List ℚ := bets.map profitOf

/-- Running (inclusive) sums starting from accumulator `acc`. -/
def cumsumFrom (acc : ℚ) : List ℚ → List ℚ
  | [] => []
  | x :: xs => (acc + x) :: cumsumFrom (acc + x) xs

/-- `Series.cumsum`. -/
def cumsum (l : List ℚ) : List ℚ := cumsumFrom 0 l

/-- Running maxima continuing from current maximum `m`. -/
def cummaxFrom (m : ℚ) : List ℚ → List ℚ
  | [] => []
  | x :: xs => (max m x) :: cummaxFrom (max m x) xs

/-- `Series.cummax`. -/
def cummax : List ℚ → List ℚ
  | [] => []
  | x :: xs => x :: cummaxFrom x xs

/-- `Series.min`: `none` on an empty series (pandas `NaN`). -/
def seriesMin : List ℚ → Option ℚ
  | [] => none
  | x :: xs => some (xs.foldl min x)

/-- `calculate_drawdown` of `backtest.py`: rolling max of the equity
series, relative drawdown at each step, and the minimum drawdown. -/
def calculate_drawdown (cumulative_returns : List ℚ) : Option ℚ × List ℚ :=
  let rolling_max := cummax cumulative_returns
  let drawdown :=
    List.zipWith (fun c m => (c - m) / m) cumulative_returns rolling_max
  (seriesMin drawdown, drawdown)

/-- The quantities `main` of `backtest.py` computes and reports
(the Sharpe-like ratio, which needs `ℝ`, is modelled separately as
`backtest_sharpe`). -/
structure BacktestReport where
  hit_rate : ℚ
  profit : List ℚ
  total_profit : ℚ
  roi : ℚ
  cumulative_profit : List ℚ
  max_drawdown : Option ℚ
  drawdown : List ℚ
deriving DecidableEq

/-- `main` of `backtest.py` on an already-loaded frame: on an empty
frame it prints "no historical value bets" and returns without any
numeric report (`none`); otherwise it produces the report. -/
def backtest_main (df : List BetRow) : Option BacktestReport :=
  if df.length = 0 then none
  else
    let hit_rate := meanQ (df.map (fun b => if b.is_top3 then (1 : ℚ) else 0))
    let profit := profits df
    let total_profit := profit.sum
    let total_stake : ℚ := (df.length : ℚ)
    let roi := total_profit / total_stake * 100
    let cumulative_profit := cumsum profit
    let dd := calculate_drawdown (cumulative_profit.map (fun c => c + total_stake))
    some
      { hit_rate := hit_rate
        profit := profit
        total_profit := total_profit
        roi := roi
        cumulative_profit := cumulative_profit
        max_drawdown := dd.1
        drawdown := dd.2 }

/-- Mean of the profit series in `ℝ` (for the Sharpe-like ratio). -/
noncomputable def meanR (l : List ℚ) : ℝ := ((l.sum : ℚ) : ℝ) / (l.length : ℝ)

/-- `Series.std` (sample standard deviation, `ddof = 1`):
square root of `Σ (x − mean)² / (n − 1)`. -/
noncomputable def stdR (l : List ℚ) : ℝ :=
  Real.sqrt ((l.map (fun x => ((x : ℝ) - meanR l) ^ 2)).sum / ((l.length : ℝ) - 1))

/-- The Sharpe-like ratio of `backtest.py`:
`mean(profit)/std(profit) if std(profit) != 0 else 0`. -/
noncomputable def backtest_sharpe (bets : List BetRow) : ℝ :=
  if stdR (profits bets) ≠ 0 then meanR (profits bets) / stdR (profits bets) else 0

/-! ## api.py -/

namespace Api

/-- `calculate_implied_probability` of `api.py`:
`0.0` for odds `<= 0`, else `1/odds`. -/
def calculate_implied_probability (odds : ℚ) : ℚ :=
  if odds ≤ 0 then 0 else 1 / odds

/-- `calculate_kelly_fraction` of `api.py`: guard for degenerate input,
win probability estimated as `min(predicted_prob/3, 0.99)`, Kelly
formula, then clamp to `[0, 0.1]`. -/
def calculate_kelly_fraction (predicted_prob odds : ℚ) : ℚ :=
  if odds ≤ 1 ∨ predicted_prob ≤ 0 then 0
  else
    let estimated_win_prob := min (predicted_prob / 3) (99 / 100)
    let b := odds - 1
    let q := 1 - estimated_win_prob
    let kelly := (b * estimated_win_prob - q) / b
    max 0 (min kelly (1 / 10))

end Api

/-! ## dashboard.py -/

namespace Dashboard

/-- `calculate_implied_probability` of `dashboard.py`:
`1.0 / odds if odds > 0 else 0.0`. -/
def calculate_implied_probability (odds : ℚ) : ℚ :=
  if 0 < odds then 1 / odds else 0

/-- `calculate_kelly_fraction` of `dashboard.py` (same text as the
`api.py` copy). -/
def calculate_kelly_fraction (predicted_prob odds : ℚ) : ℚ :=
  if odds ≤ 1 ∨ predicted_prob ≤ 0 then 0
  else
    let estimated_win_prob := min (predicted_prob / 3) (99 / 100)
    let b := odds - 1
    let q := 1 - estimated_win_prob
    let kelly := (b * estimated_win_prob - q) / b
    max 0 (min kelly (1 / 10))

end Dashboard

/-! ## value_betting.py and backtest_from_historical.py -/

/-- The edge computation of `calculate_value_bets` in `value_betting.py`:
`df['edge'] = df['predicted_top3_prob'] - (1 / df['win_odds'])` —
the implied probability here is the raw reciprocal, with no guard. -/
def value_betting_edge (predicted_top3_prob win_odds : ℚ) : ℚ :=
  predicted_top3_prob - 1 / win_odds

/-- The implied probability of `main` in `backtest_from_historical.py`:
`df['implied_prob'] = 1 / df['win_odds']` — raw reciprocal, no guard. -/
def historical_implied_prob (win_odds : ℚ) : ℚ := 1 / win_odds

/-! ## Concrete inputs used by the witnesses and counterexamples -/

/-- A single-horse history, dates ascending, outcomes `[1, 0, 1]`:
exercises the `top3_rate_last_1` column at position 2. -/
def dfThree : List Row :=
  [ { horse_name := 7, race_date := 0, is_top3 := true, win_odds := 2, actual_weight := 120 }
  , { horse_name := 7, race_date := 7, is_top3 := false, win_odds := 3, actual_weight := 121 }
  , { horse_name := 7, race_date := 14, is_top3 := true, win_odds := 4, actual_weight := 122 } ]

/-- An unordered history with a duplicate (horse, date) pair:
the dates of horse 7 appear out of order and day 7 occurs twice. -/
def dfBad : List Row :=
  [ { horse_name := 7, race_date := 14, is_top3 := true, win_odds := 4, actual_weight := 122 }
  , { horse_name := 7, race_date := 0, is_top3 := true, win_odds := 2, actual_weight := 120 }
  , { horse_name := 7, race_date := 7, is_top3 := false, win_odds := 3, actual_weight := 121 }
  , { horse_name := 7, race_date := 7, is_top3 := false, win_odds := 3, actual_weight := 121 } ]

/-- The three-bet example sequence of the specification:
(odds 2.0, win), (odds 3.0, loss), (odds 1.5, win). -/
def exBets : List BetRow :=
  [ { is_top3 := true, win_odds := 2 }
  , { is_top3 := false, win_odds := 3 }
  , { is_top3 := true, win_odds := 3 / 2 } ]

/-- A two-bet sequence with nonzero profit spread (profits `[1, -1]`). -/
def exBets2 : List BetRow :=
  [ { is_top3 := true, win_odds := 2 }
  , { is_top3 := false, win_odds := 3 } ]

/-- The report `backtest_main` produces on `exBets`. -/
def exReport : BacktestReport :=
  { hit_rate := 2 / 3
    profit := [1, -1, 1 / 2]
    total_profit := 1 / 2
    roi := 50 / 3
    cumulative_profit := [1, 0, 1 / 2]
    max_drawdown := some (-(1 / 4))
    drawdown := [0, -(1 / 4), -(1 / 8)] }

/-! ## Helper lemmas -/

theorem cumsumFrom_length (l : List ℚ) : ∀ acc, (cumsumFrom acc l).length = l.length := by
  induction l with
  | nil => intro acc; rfl
  | cons x xs ih => intro acc; simp [cumsumFrom, ih]

theorem cumsumFrom_getElem (l : List ℚ) :
    ∀ (acc : ℚ) (i : Nat), i < l.length →
      (cumsumFrom acc l)[i]? = some (acc + (l.take (i + 1)).sum) := by
  induction l with
  | nil => intro acc i h; simp at h
  | cons x xs ih =>
    intro acc i h
    cases i with
    | zero => simp [cumsumFrom]
    | succ n =>
      have hn : n < xs.length := by simpa using h
      simp only [cumsumFrom, List.getElem?_cons_succ]
      rw [ih (acc + x) n hn]
      simp [List.take_succ_cons, add_assoc]

theorem cummaxFrom_length (l : List ℚ) : ∀ m, (cummaxFrom m l).length = l.length := by
  induction l with
  | nil => intro m; rfl
  | cons x xs ih => intro m; simp [cummaxFrom, ih]

theorem cummax_length (l : List ℚ) : (cummax l).length = l.length := by
  cases l with
  | nil => rfl
  | cons x xs => simp [cummax, cummaxFrom_length]

theorem cummaxFrom_getElem (l : List ℚ) :
    ∀ (m : ℚ) (i : Nat), i < l.length →
      (cummaxFrom m l)[i]? = some ((l.take (i + 1)).foldl max m) := by
  induction l with
  | nil => intro m i h; simp at h
  | cons x xs ih =>
    intro m i h
    cases i with
    | zero => simp [cummaxFrom]
    | succ n =>
      have hn : n < xs.length := by simpa using h
      simp only [cummaxFrom, List.getElem?_cons_succ]
      rw [ih (max m x) n hn]
      simp [List.take_succ_cons]

theorem foldl_max_spec (l : List ℚ) : ∀ init : ℚ,
    init ≤ l.foldl max init ∧ (∀ y ∈ l, y ≤ l.foldl max init) ∧
      (l.foldl max init = init ∨ l.foldl max init ∈ l) := by
  induction l with
  | nil => intro init; simp
  | cons x xs ih =>
    intro init
    obtain ⟨h1, h2, h3⟩ := ih (max init x)
    rw [List.foldl_cons]
    refine ⟨le_trans (le_max_left _ _) h1, ?_, ?_⟩
    · intro y hy
      rcases List.mem_cons.mp hy with rfl | hy
      · exact le_trans (le_max_right _ _) h1
      · exact h2 y hy
    · rcases h3 with h | h
      · rcases max_choice init x with hc | hc
        · exact Or.inl (h.trans hc)
        · exact Or.inr (List.mem_cons.mpr (Or.inl (h.trans hc)))
      · exact Or.inr (List.mem_cons.mpr (Or.inr h))

theorem foldl_min_spec (l : List ℚ) : ∀ init : ℚ,
    l.foldl min init ≤ init ∧ (∀ y ∈ l, l.foldl min init ≤ y) ∧
      (l.foldl min init = init ∨ l.foldl min init ∈ l) := by
  induction l with
  | nil => intro init; simp
  | cons x xs ih =>
    intro init
    obtain ⟨h1, h2, h3⟩ := ih (min init x)
    rw [List.foldl_cons]
    refine ⟨le_trans h1 (min_le_left _ _), ?_, ?_⟩
    · intro y hy
      rcases List.mem_cons.mp hy with rfl | hy
      · exact le_trans h1 (min_le_right _ _)
      · exact h2 y hy
    · rcases h3 with h | h
      · rcases min_choice init x with hc | hc
        · exact Or.inl (h.trans hc)
        · exact Or.inr (List.mem_cons.mpr (Or.inl (h.trans hc)))
      · exact Or.inr (List.mem_cons.mpr (Or.inr h))

theorem cummax_prefix_max (l : List ℚ) (i : Nat) (hi : i < l.length) :
    ∃ m, (cummax l)[i]? = some m ∧ m ∈ l.take (i + 1) ∧
      ∀ y ∈ l.take (i + 1), y ≤ m := by
  cases l with
  | nil => simp at hi
  | cons x xs =>
    cases i with
    | zero => exact ⟨x, by simp [cummax], by simp, by simp⟩
    | succ n =>
      have hn : n < xs.length := by simpa using hi
      refine ⟨(xs.take (n + 1)).foldl max x, ?_, ?_, ?_⟩
      · simp only [cummax, List.getElem?_cons_succ]
        exact cummaxFrom_getElem xs x n hn
      · rcases (foldl_max_spec (xs.take (n + 1)) x).2.2 with h | h
        · rw [h]; simp
        · rw [List.take_succ_cons]
          exact List.mem_cons.mpr (Or.inr h)
      · intro y hy
        rw [List.take_succ_cons] at hy
        rcases List.mem_cons.mp hy with rfl | hy
        · exact (foldl_max_spec (xs.take (n + 1)) y).1
        · exact (foldl_max_spec (xs.take (n + 1)) x).2.1 y hy

theorem seriesMin_spec (l : List ℚ) (m : ℚ) (hm : seriesMin l = some m) :
    m ∈ l ∧ ∀ y ∈ l, m ≤ y := by
  cases l with
  | nil => simp [seriesMin] at hm
  | cons x xs =>
    simp only [seriesMin, Option.some.injEq] at hm
    obtain ⟨h1, h2, h3⟩ := foldl_min_spec xs x
    subst hm
    constructor
    · rcases h3 with h | h
      · rw [h]; simp
      · exact List.mem_cons.mpr (Or.inr h)
    · intro y hy
      rcases List.mem_cons.mp hy with rfl | hy
      · exact h1
      · exact h2 y hy

theorem sum_indicator_eq_filter_length (bets : List BetRow) :
    (bets.map (fun b => if b.is_top3 then (1 : ℚ) else 0)).sum =
      ((bets.filter (fun b => b.is_top3)).length : ℚ) := by
  induction bets with
  | nil => simp
  | cons b t ih =>
    by_cases hb : b.is_top3 <;>
      simp [List.filter_cons, hb, ih, add_comm]

theorem calculate_drawdown_snd_length (l : List ℚ) :
    (calculate_drawdown l).2.length = l.length := by
  simp [calculate_drawdown, List.length_zipWith, cummax_length]

theorem calculate_drawdown_snd_getElem (l : List ℚ) (i : Nat) (hi : i < l.length) :
    ∃ m, m ∈ l.take (i + 1) ∧ (∀ y ∈ l.take (i + 1), y ≤ m) ∧
      (calculate_drawdown l).2[i]? = some ((l[i] - m) / m) := by
  obtain ⟨m, hget, hmem, hub⟩ := cummax_prefix_max l i hi
  refine ⟨m, hmem, hub, ?_⟩
  show (List.zipWith (fun c mx => (c - mx) / mx) l (cummax l))[i]? = _
  rw [List.getElem?_zipWith, List.getElem?_eq_getElem hi, hget]

theorem calculate_drawdown_fst_spec (l : List ℚ) (m : ℚ)
    (hm : (calculate_drawdown l).1 = some m) :
    m ∈ (calculate_drawdown l).2 ∧ ∀ y ∈ (calculate_drawdown l).2, m ≤ y :=
  seriesMin_spec ((calculate_drawdown l).2) m hm

theorem calculate_drawdown_fst_isSome (l : List ℚ) (hl : l ≠ []) :
    (calculate_drawdown l).1 ≠ none := by
  cases l with
  | nil => exact absurd rfl hl
  | cons x xs => simp [calculate_drawdown, cummax, seriesMin]

/-! ## Claim theorems -/

set_option maxHeartbeats 1600000 in
/-- Claim C1: the spec says `rate_over_window(w)` equals the mean of the
`min(i,w)` outcomes immediately preceding position `i`, for every window
`w ∈ {1,3,5}`.  The code violates this for `w = 1`: `top3_rate_last_1`
is computed from `group.iloc[:i]`, i.e. from all `i` prior outcomes.  On
the single-horse history with outcomes `[1,0,1]`, at position `i = 2`
the code yields `1/2` (mean of `[1,0]`), while the mean of the last
`min(2,1) = 1` preceding outcomes is `0` — as the code's own
`last_is_top3` column (the outcome at `i−1`) shows. -/
theorem C1_rate_last_1_uses_full_history :
    ((add_historical_features dfThree).map (fun p => p.2.top3_rate_last_1)) =
      [none, some 1, some (1 / 2)] ∧
    ((add_historical_features dfThree).map (fun p => p.2.last_is_top3)) =
      [none, some 1, some 0] ∧
    meanQ (((dfThree.take 2).drop (2 - 1)).map outcomeVal) = 0 ∧
    ((1 : ℚ) / 2) ≠ (0 : ℚ) := by
  refine ⟨?_, ?_, ?_, by norm_num⟩
  · norm_num [add_historical_features, sortRows, dfThree, List.insertionSort,
      List.orderedInsert, rowLE, List.enum, List.enumFrom, featureRowAt, meanQ,
      outcomeVal, emptyFeatureRow, List.filter]
  · norm_num [add_historical_features, sortRows, dfThree, List.insertionSort,
      List.orderedInsert, rowLE, List.enum, List.enumFrom, featureRowAt, meanQ,
      outcomeVal, emptyFeatureRow, List.filter]
  · norm_num [dfThree, meanQ, outcomeVal]

/-- Claim C4: `calculate_kelly_fraction` returns 0 when `odds ≤ 1` or
`predicted_prob ≤ 0`; otherwise it is the Kelly formula with
`w = min(p/3, 0.99)`, `b = odds − 1`, `q = 1 − w`, clamped into
`[0, 0.10]`; the result always lies in `[0, 0.10]`; `kelly(0, odds) = 0`
and `kelly(0.9, 1) = 0`. -/
theorem C4_kelly_guard_formula_bounds (p odds : ℚ) :
    Api.calculate_kelly_fraction p odds =
      (if odds ≤ 1 ∨ p ≤ 0 then 0
       else
        max 0 (min (((odds - 1) * min (p / 3) (99 / 100) -
          (1 - min (p / 3) (99 / 100))) / (odds - 1)) (1 / 10))) ∧
    0 ≤ Api.calculate_kelly_fraction p odds ∧
    Api.calculate_kelly_fraction p odds ≤ 1 / 10 ∧
    Api.calculate_kelly_fraction 0 odds = 0 ∧
    Api.calculate_kelly_fraction (9 / 10) 1 = 0 := by
  refine ⟨rfl, ?_, ?_, ?_, ?_⟩
  · unfold Api.calculate_kelly_fraction
    split
    · exact le_refl 0
    · exact le_max_left 0 _
  · unfold Api.calculate_kelly_fraction
    split
    · norm_num
    · exact max_le (by norm_num) (min_le_right _ _)
  · unfold Api.calculate_kelly_fraction
    rw [if_pos (Or.inr (le_refl (0 : ℚ)))]
  · unfold Api.calculate_kelly_fraction
    rw [if_pos (Or.inl (le_refl (1 : ℚ)))]

/-- Claim C5, counterexample: on an unordered history of horse 7 with a
duplicate (horse, date) pair (dates `[14, 0, 7, 7]`),
`add_historical_features` raises nothing: it silently sorts the rows
and returns a fully computed feature table for all four rows. -/
theorem C5_counterexample_silent_on_bad_input :
    (add_historical_features dfBad).length = 4 ∧
    ((add_historical_features dfBad).map (fun p => p.1.race_date)) =
      [0, 7, 7, 14] ∧
    ((add_historical_features dfBad).map (fun p => p.2.days_since_last_race)) =
      [none, some 7, some 0, some 7] ∧
    ((add_historical_features dfBad).map (fun p => p.2.top3_rate_last_1)) =
      [none, some 1, some (1 / 2), some (1 / 3)] := by
  norm_num [add_historical_features, sortRows, dfBad, List.insertionSort,
    List.orderedInsert, rowLE, List.enum, List.enumFrom, featureRowAt, meanQ,
    outcomeVal, emptyFeatureRow, List.filter]

/-- Claim C5, amended: the feature builder performs no ordering or
duplicate validation.  For every input — ordered or not, duplicates or
not — it sorts the rows by (horse, date) and computes features for every
row, returning exactly one feature row per input row; no error path
exists. -/
theorem C5_builder_total_no_validation (df : List Row) :
    (add_historical_features df).length = df.length ∧
    add_historical_features df = add_historical_features (sortRows df) := by
  constructor
  · unfold add_historical_features
    simp [sortRows, List.length_insertionSort]
  · unfold add_historical_features
    rw [show sortRows (sortRows df) = sortRows df from
      List.Sorted.insertionSort_eq (List.sorted_insertionSort rowLE df)]

/-- Claim C6, counterexample: the claim asserts the implied probability
is `0` whenever `market_odds ≤ 0` at every call site, including the
value-bet edge computations.  `backtest_from_historical.py` computes the
raw reciprocal `1/win_odds`, which at `win_odds = −2` is `−1/2`, not `0`
(the API's guarded function does return `0` there), and
`value_betting.py`'s edge inherits the same unguarded reciprocal. -/
theorem C6_counterexample_raw_reciprocal :
    historical_implied_prob (-2) = -(1 / 2) ∧
    Api.calculate_implied_probability (-2) = 0 ∧
    historical_implied_prob (-2) ≠ 0 ∧
    value_betting_edge 0 (-2) = 1 / 2 ∧
    value_betting_edge 0 (-2) ≠ 0 - Api.calculate_implied_probability (-2) := by
  norm_num [historical_implied_prob, Api.calculate_implied_probability,
    value_betting_edge]

/-- Claim C6, amended: the API's and the dashboard's
`calculate_implied_probability` return `1/odds` for positive odds and
`0` for non-positive odds (and, being total functions, never raise);
but the edge computations of `value_betting.py` and
`backtest_from_historical.py` use the raw reciprocal `1/odds` with no
guard, which is negative — not `0` — whenever `odds < 0`. -/
theorem C6_guarded_vs_raw_implied (odds : ℚ) :
    (0 < odds →
      Api.calculate_implied_probability odds = 1 / odds ∧
      Dashboard.calculate_implied_probability odds = 1 / odds ∧
      historical_implied_prob odds = 1 / odds) ∧
    (odds ≤ 0 →
      Api.calculate_implied_probability odds = 0 ∧
      Dashboard.calculate_implied_probability odds = 0) ∧
    (odds < 0 → historical_implied_prob odds < 0 ∧
      ∀ p : ℚ, value_betting_edge p odds = p - 1 / odds) := by
  refine ⟨?_, ?_, ?_⟩
  · intro h
    exact ⟨by simp [Api.calculate_implied_probability, not_le.mpr h],
      by simp [Dashboard.calculate_implied_probability, h], rfl⟩
  · intro h
    exact ⟨by simp [Api.calculate_implied_probability, h],
      by simp [Dashboard.calculate_implied_probability, not_lt.mpr h]⟩
  · intro h
    exact ⟨one_div_neg.mpr h, fun p => rfl⟩

/-- Claim C6, witness: the amended statement applied at odds `−2`
and `2`. -/
theorem C6_guarded_vs_raw_implied_witness :
    (Api.calculate_implied_probability (-2) = 0 ∧
      Dashboard.calculate_implied_probability (-2) = 0) ∧
    (historical_implied_prob (-2) < 0 ∧
      ∀ p : ℚ, value_betting_edge p (-2) = p - 1 / (-2)) ∧
    (Api.calculate_implied_probability 2 = 1 / 2 ∧
      Dashboard.calculate_implied_probability 2 = 1 / 2 ∧
      historical_implied_prob 2 = 1 / 2) :=
  ⟨(C6_guarded_vs_raw_implied (-2)).2.1 (by norm_num),
   (C6_guarded_vs_raw_implied (-2)).2.2 (by norm_num),
   (C6_guarded_vs_raw_implied 2).1 (by norm_num)⟩

/-- Claim C9: `main` of `backtest.py` on an empty bet sequence returns
its explicit "no data" result (`none`) and produces no numeric report
at all — in particular no zero-valued ROI, total profit or hit rate. -/
theorem C9_empty_input_no_report : backtest_main [] = none := rfl

/-- Claim C10: the `calculate_kelly_fraction` and
`calculate_implied_probability` functions duplicated in `api.py` and
`dashboard.py` are extensionally equal. -/
theorem C10_api_dashboard_duplicates_agree (p odds : ℚ) :
    Api.calculate_kelly_fraction p odds = Dashboard.calculate_kelly_fraction p odds ∧
    Api.calculate_implied_probability odds = Dashboard.calculate_implied_probability odds := by
  refine ⟨rfl, ?_⟩
  unfold Api.calculate_implied_probability Dashboard.calculate_implied_probability
  rcases le_or_lt odds 0 with h | h
  · rw [if_pos h, if_neg (not_lt.mpr h)]
  · rw [if_neg (not_le.mpr h), if_pos h]

/-- Claim C2: whenever `main` of `backtest.py` produces a report, the
profit column is `odds − 1` on a hit and `−1` on a miss, in input
order; the cumulative profit at each index is the sum of the profits up
to and including it; the hit rate is the fraction of hits (the mean of
the 0/1 outcomes); and ROI is total profit over the number of bets
times 100. -/
theorem C2_backtest_profit_series (bets : List BetRow) (r : BacktestReport)
    (hr : backtest_main bets = some r) :
    r.profit = bets.map (fun b => if b.is_top3 then b.win_odds - 1 else -1) ∧
    r.cumulative_profit.length = bets.length ∧
    (∀ i, i < bets.length →
      r.cumulative_profit[i]? = some ((r.profit.take (i + 1)).sum)) ∧
    r.hit_rate = ((bets.filter (fun b => b.is_top3)).length : ℚ) / (bets.length : ℚ) ∧
    r.total_profit = r.profit.sum ∧
    r.roi = r.total_profit / (bets.length : ℚ) * 100 := by
  unfold backtest_main at hr
  by_cases hlen : bets.length = 0
  · rw [if_pos hlen] at hr
    exact absurd hr (by simp)
  · rw [if_neg hlen] at hr
    obtain rfl := (Option.some.inj hr).symm
    refine ⟨rfl, ?_, ?_, ?_, rfl, rfl⟩
    · show (cumsum (profits bets)).length = bets.length
      rw [cumsum, cumsumFrom_length, profits, List.length_map]
    · intro i hi
      show (cumsum (profits bets))[i]? = some (((profits bets).take (i + 1)).sum)
      rw [cumsum, cumsumFrom_getElem (profits bets) 0 i
        (by rwa [profits, List.length_map]), zero_add]
    · show meanQ (bets.map (fun b => if b.is_top3 then (1 : ℚ) else 0)) = _
      rw [meanQ, sum_indicator_eq_filter_length, List.length_map]

/-- Claim C2, witness: the theorem applied to the specification's
three-bet example, whose report has profits `[1, −1, 1/2]`, cumulative
profit `[1, 0, 1/2]`, hit rate `2/3` and ROI `50/3` %. -/
theorem C2_backtest_profit_series_witness :
    backtest_main exBets = some exReport ∧
    (exReport.profit = exBets.map (fun b => if b.is_top3 then b.win_odds - 1 else -1) ∧
     exReport.cumulative_profit.length = exBets.length ∧
     (∀ i, i < exBets.length →
       exReport.cumulative_profit[i]? = some ((exReport.profit.take (i + 1)).sum)) ∧
     exReport.hit_rate =
       ((exBets.filter (fun b => b.is_top3)).length : ℚ) / (exBets.length : ℚ) ∧
     exReport.total_profit = exReport.profit.sum ∧
     exReport.roi = exReport.total_profit / (exBets.length : ℚ) * 100) :=
  ⟨by norm_num [backtest_main, exBets, exReport, profits, profitOf, meanQ, cumsum,
      cumsumFrom, calculate_drawdown, cummax, cummaxFrom, seriesMin],
   C2_backtest_profit_series exBets exReport
     (by norm_num [backtest_main, exBets, exReport, profits, profitOf, meanQ, cumsum,
        cumsumFrom, calculate_drawdown, cummax, cummaxFrom, seriesMin])⟩

/-- Claim C3: whenever `main` of `backtest.py` produces a report, with
`equity = cumulative_profit + n` (one staked unit per bet), each
drawdown entry is `(equity[i] − rolling_max[i]) / rolling_max[i]` where
`rolling_max[i]` is the maximum of `equity[0..i]`, and `max_drawdown`
is the minimum of the drawdown series (which exists: it is never
reported as `none`). -/
theorem C3_backtest_equity_drawdown (bets : List BetRow) (r : BacktestReport)
    (hr : backtest_main bets = some r) :
    ∀ equity, equity = r.cumulative_profit.map (fun c => c + (bets.length : ℚ)) →
      r.drawdown.length = equity.length ∧
      (∀ i (hi : i < equity.length),
        ∃ m, m ∈ equity.take (i + 1) ∧ (∀ y ∈ equity.take (i + 1), y ≤ m) ∧
          r.drawdown[i]? = some ((equity[i] - m) / m)) ∧
      (∀ m, r.max_drawdown = some m →
        m ∈ r.drawdown ∧ ∀ y ∈ r.drawdown, m ≤ y) ∧
      r.max_drawdown ≠ none := by
  unfold backtest_main at hr
  by_cases hlen : bets.length = 0
  · rw [if_pos hlen] at hr
    exact absurd hr (by simp)
  · rw [if_neg hlen] at hr
    obtain rfl := (Option.some.inj hr).symm
    intro equity heq
    have hE : equity =
        (cumsum (profits bets)).map (fun c => c + (bets.length : ℚ)) := heq
    have hEne : equity ≠ [] := by
      rw [hE]
      intro hnil
      apply hlen
      have := congrArg List.length hnil
      simpa [cumsum, cumsumFrom_length, profits] using this
    subst hE
    refine ⟨calculate_drawdown_snd_length _, ?_, ?_, ?_⟩
    · intro i hi
      obtain ⟨m, hmem, hub, hdd⟩ := calculate_drawdown_snd_getElem _ i hi
      exact ⟨m, hmem, hub, hdd⟩
    · intro m hm
      exact calculate_drawdown_fst_spec _ m hm
    · exact calculate_drawdown_fst_isSome _ hEne

/-- Claim C3, witness: the theorem applied to the specification's
three-bet example, where equity is `[4, 3, 7/2]`, the rolling max is
`[4, 4, 4]`, the drawdown series is `[0, −1/4, −1/8]` and the maximum
drawdown is `−1/4`. -/
theorem C3_backtest_equity_drawdown_witness :
    backtest_main exBets = some exReport ∧
    exReport.cumulative_profit.map (fun c => c + (exBets.length : ℚ)) = [4, 3, 7 / 2] ∧
    exReport.drawdown = [0, -(1 / 4), -(1 / 8)] ∧
    exReport.max_drawdown = some (-(1 / 4)) ∧
    (exReport.drawdown.length =
        (exReport.cumulative_profit.map (fun c => c + (exBets.length : ℚ))).length ∧
      (∀ i (hi : i < (exReport.cumulative_profit.map
          (fun c => c + (exBets.length : ℚ))).length),
        ∃ m, m ∈ (exReport.cumulative_profit.map
            (fun c => c + (exBets.length : ℚ))).take (i + 1) ∧
          (∀ y ∈ (exReport.cumulative_profit.map
              (fun c => c + (exBets.length : ℚ))).take (i + 1), y ≤ m) ∧
          exReport.drawdown[i]? =
            some (((exReport.cumulative_profit.map
              (fun c => c + (exBets.length : ℚ)))[i] - m) / m)) ∧
      (∀ m, exReport.max_drawdown = some m →
        m ∈ exReport.drawdown ∧ ∀ y ∈ exReport.drawdown, m ≤ y) ∧
      exReport.max_drawdown ≠ none) :=
  ⟨by norm_num [backtest_main, exBets, exReport, profits, profitOf, meanQ, cumsum,
      cumsumFrom, calculate_drawdown, cummax, cummaxFrom, seriesMin],
   by norm_num [exBets, exReport],
   by norm_num [exReport],
   by norm_num [exReport],
   C3_backtest_equity_drawdown exBets exReport
     (by norm_num [backtest_main, exBets, exReport, profits, profitOf, meanQ, cumsum,
        cumsumFrom, calculate_drawdown, cummax, cummaxFrom, seriesMin])
     (exReport.cumulative_profit.map (fun c => c + (exBets.length : ℚ))) rfl⟩

/-- Claim C7: for every non-empty bet sequence, the Sharpe-like ratio
of `backtest.py` equals `mean(profit) / std(profit)` (division by a
zero standard deviation denoting 0), and it equals 0 whenever the
standard deviation is 0 — the division-by-zero branch is never taken. -/
theorem C7_sharpe_ratio_guard (bets : List BetRow) (_h : bets ≠ []) :
    backtest_sharpe bets = meanR (profits bets) / stdR (profits bets) ∧
    (stdR (profits bets) = 0 → backtest_sharpe bets = 0) := by
  unfold backtest_sharpe
  by_cases hs : stdR (profits bets) = 0
  · simp [hs]
  · simp [hs]

/-- Claim C7, witness: the theorem applied to the two-bet sequence with
profits `[1, −1]`. -/
theorem C7_sharpe_ratio_guard_witness :
    exBets2 ≠ [] ∧
    (backtest_sharpe exBets2 = meanR (profits exBets2) / stdR (profits exBets2) ∧
     (stdR (profits exBets2) = 0 → backtest_sharpe exBets2 = 0)) :=
  ⟨by simp [exBets2], C7_sharpe_ratio_guard exBets2 (by simp [exBets2])⟩

/-- Claim C8: a row of the output of `add_historical_features` that is
the first row of its horse in the sorted frame (no earlier row of the
same horse precedes it) has every derived feature field null: last
outcome, all rolling rates and rolling means, and the days since the
previous race. -/
theorem C8_first_row_all_null (df : List Row) (idx : Nat) (r : Row) (fr : FeatureRow)
    (hget : (add_historical_features df)[idx]? = some (r, fr))
    (hfirst : ((sortRows df).take idx).filter
      (fun r2 => r2.horse_name = r.horse_name) = []) :
    fr = emptyFeatureRow := by
  unfold add_historical_features at hget
  rw [List.getElem?_map, List.getElem?_enum] at hget
  cases hs : (sortRows df)[idx]? with
  | none => rw [hs] at hget; simp at hget
  | some row =>
    rw [hs] at hget
    simp only [Option.map_some', Option.some.injEq, Prod.mk.injEq] at hget
    obtain ⟨rfl, rfl⟩ := hget
    rw [hfirst]
    simp [featureRowAt]

set_option maxHeartbeats 1600000 in
/-- Claim C8, witness: the theorem applied to the first output row of
the three-race history `dfThree`. -/
theorem C8_first_row_all_null_witness :
    (add_historical_features dfThree)[0]? =
      some ({ horse_name := 7, race_date := 0, is_top3 := true,
              win_odds := 2, actual_weight := 120 }, emptyFeatureRow) ∧
    emptyFeatureRow = emptyFeatureRow :=
  ⟨by norm_num [add_historical_features, sortRows, dfThree, List.insertionSort,
      List.orderedInsert, rowLE, List.enum, List.enumFrom, featureRowAt, meanQ,
      outcomeVal, emptyFeatureRow, List.filter],
   C8_first_row_all_null dfThree 0
     { horse_name := 7, race_date := 0, is_top3 := true,
       win_odds := 2, actual_weight := 120 }
     emptyFeatureRow
     (by norm_num [add_historical_features, sortRows, dfThree, List.insertionSort,
        List.orderedInsert, rowLE, List.enum, List.enumFrom, featureRowAt, meanQ,
        outcomeVal, emptyFeatureRow, List.filter])
     (by simp)⟩

end HorseRacing
